import Mathlib

/-!
A shallow embedding of the GCRA rate-limiter core of the `governor` crate
(`governor/src/gcra.rs`, `governor/src/quota.rs`, `governor/src/state/in_memory.rs`,
`governor/src/state/keyed.rs`, `src/nanos.rs`), together with theorems about the
decision functions.

Modelling conventions:
* `Nanos` (`src/nanos.rs`) is a `u64` nanosecond count; it is embedded
  directly as `Nat` (every nanosecond-typed argument and field below is a
  `Nat`).  `Nat` subtraction is truncated at zero, which is exactly
  `Nanos::saturating_sub` / `u64::saturating_sub`.  Additions and
  multiplications are embedded without a `2^64` wrap: the crate documents that
  tat values never approach the 584-year representation limit, and none of the
  verified claims concern `u64` overflow.
* `u32` casts (`as u32` in the Rust source) are genuine truncations and are
  embedded faithfully as `% 2^32`; `u32` additions that follow such casts are
  embedded with the release-mode wrap `% 2^32`.
* Clock instants are embedded as `Nanos`: the crate itself instantiates its
  `clock::Reference` abstraction at `Nanos` (`FakeRelativeClock`), where
  `duration_since` is saturating subtraction and `+` is addition.
* The atomic CAS retry loops of `InMemoryState` are embedded by their
  sequential semantics (no concurrent writers): the first compare-exchange
  always succeeds, so the loop evaluates the decision closure exactly once.
* The middleware type parameter is instantiated at the state-information shape
  (positive outcome: the snapshot; negative outcome: `NotUntil`); middleware
  never alters the decision itself.
-/

/-- The modulus of a Rust `as u32` cast. -/
def u32Mod : Nat := 4294967296

/-- A rate-limiting quota (`Quota` in `governor/src/quota.rs`): a maximum burst
size (`NonZeroU32`) and the replenish interval for one cell, in nanoseconds. -/
structure Quota where
  max_burst : Nat
  replenish_1_per : Nat
deriving DecidableEq, Repr

/-- `Quota::per_second`: `replenish_interval_ns = 1s / max_burst` (integer
division, so it rounds down to zero for `max_burst > 10^9`). -/
def Quota.per_second (max_burst : Nat) : Quota :=
  { max_burst := max_burst, replenish_1_per := 1000000000 / max_burst }

/-- `Quota::with_period`: burst 1, replenishing one cell per `d`; `None` if `d`
is zero. -/
def Quota.with_period (d : Nat) : Option Quota :=
  if d = 0 then none else some { max_burst := 1, replenish_1_per := d }

/-- `Quota::allow_burst`: replace the maximum burst size. -/
def Quota.allow_burst (q : Quota) (max_burst : Nat) : Quota :=
  { q with max_burst := max_burst }

/-- `Quota::from_gcra_parameters` (`governor/src/quota.rs`):
`max_burst = 1 + (tau.as_u64() / t.as_u64()) as u32` (the division is in `u64`,
then cast to `u32`, then incremented in `u32`), `replenish_1_per = t`. -/
def Quota.from_gcra_parameters (t tau : Nat) : Quota :=
  { max_burst := (1 + tau / t % u32Mod) % u32Mod, replenish_1_per := t }

/-- The GCRA parameters (`Gcra` in `governor/src/gcra.rs`): the weight `t` of a
single cell and the tolerance `tau`, both in nanoseconds. -/
structure Gcra where
  t : Nat
  tau : Nat
deriving DecidableEq, Repr

/-- `Gcra::new`: `t = max(quota.replenish_1_per, 1ns)`,
`tau = t * (quota.max_burst - 1)`. -/
def Gcra.new (quota : Quota) : Gcra :=
  { t := max quota.replenish_1_per 1
    tau := max quota.replenish_1_per 1 * (quota.max_burst - 1) }

/-- Modelled from the spec: the four-field `StateSnapshot` struct of the
`governor` tree is not present under the provided sources (only its callers in
`governor/src/gcra.rs` and `governor/src/middleware.rs` are).  The spec gives
its shape: "Positive (observation middleware): snapshot
(t, tau, time-of-measurement, tat)". -/
structure StateSnapshot where
  t : Nat
  tau : Nat
  time_of_measurement : Nat
  tat : Nat
deriving DecidableEq, Repr

/-- Modelled from the spec: `StateSnapshot::remaining_burst_capacity` of the
`governor` tree is not present under the provided sources.  The spec defines it
as "`remaining_burst_capacity = floor(min((now + tau + t − tat), (tau + t)) / t)`,
clamped to [0, max_burst]", where `now` is the snapshot's time of measurement;
the subtraction saturates at zero and the division rounds down, so the value is
automatically within the clamp range. -/
def StateSnapshot.remaining_burst_capacity (s : StateSnapshot) : Nat :=
  min (s.time_of_measurement + s.tau + s.t - s.tat) (s.tau + s.t) / s.t

/-- A negative rate-limiting outcome (`NotUntil` in `governor/src/gcra.rs`): a
state snapshot plus the limiter's start instant. -/
structure NotUntil where
  state : StateSnapshot
  start : Nat
deriving DecidableEq, Repr

/-- `NotUntil::earliest_possible`: `start + state.tat`. -/
def NotUntil.earliest_possible (n : NotUntil) : Nat :=
  n.start + n.state.tat

/-- `NotUntil::wait_time_from`:
`earliest.duration_since(earliest.min(from))`, where `duration_since` on
`Nanos` instants is saturating subtraction. -/
def NotUntil.wait_time_from (n : NotUntil) (frm : Nat) : Nat :=
  n.earliest_possible - min n.earliest_possible frm

/-- The capacity error (`InsufficientCapacity` in `governor/src/errors.rs`); the
payload is the maximum number of cells that could ever be admitted (`u32`). -/
structure InsufficientCapacity where
  val : Nat
deriving DecidableEq, Repr

deriving instance DecidableEq for Except

/-- The contents of the atomic cell of `InMemoryState`
(`governor/src/state/in_memory.rs`), as observed by the decision closure:
`NonZeroU64::new(prev).map(|n| n.get().into())` maps the stored `0` to `None`. -/
def cellLoad (v : Nat) : Option Nat :=
  if v = 0 then none else some v

/-- `InMemoryState::measure_and_replace_one`, sequential semantics: load the
cell, run the decision closure once; on `Ok((result, new))` the (uncontended)
compare-exchange installs `new`; on `Err` the loop body never runs and the cell
is untouched.  Returns the closure's result together with the cell's final
value. -/
def InMemoryState.measure_and_replace_one {T E : Type}
    (f : Option Nat → Except E (T × Nat)) (v : Nat) : Except E T × Nat :=
  match f (cellLoad v) with
  | .ok (result, new_data) => (.ok result, new_data)
  | .error e => (.error e, v)

/-- `InMemoryState::measure_and_peek_one`, sequential semantics: as
`measure_and_replace_one`, but after a winning compare-exchange the originally
observed value (`original_prev`) is immediately stored back, so the cell's
final value is always the original one. -/
def InMemoryState.measure_and_peek_one {T E : Type}
    (f : Option Nat → Except E (T × Nat)) (v : Nat) : Except E T × Nat :=
  match f (cellLoad v) with
  | .ok (result, _new_data) => (.ok result, v)
  | .error e => (.error e, v)

/-- `InMemoryState::is_older_than`: the stored value is `<=` the given
nanosecond count. -/
def InMemoryState.is_older_than (v nanos : Nat) : Bool :=
  v ≤ nanos

/-- The decision closure of `Gcra::test_and_update` (`governor/src/gcra.rs`),
with `t0 = now.duration_since(start)` already computed: treat an absent state
as `t0`; deny when `t0 < tat.saturating_sub(tau)` with snapshot
`(t, tau, earliest, earliest)`; otherwise admit, installing
`next = max(tat, t0) + t` and returning snapshot `(t, tau, t0, next)`. -/
def Gcra.decideOne (g : Gcra) (start t0 : Nat) (tatOpt : Option Nat) :
    Except NotUntil (StateSnapshot × Nat) :=
  let tat := tatOpt.getD t0
  let earliest_time := tat - g.tau
  if t0 < earliest_time then
    .error { state := ⟨g.t, g.tau, earliest_time, earliest_time⟩, start := start }
  else
    let next := max tat t0 + g.t
    .ok (⟨g.t, g.tau, t0, next⟩, next)

/-- `Gcra::test_and_update` against a single in-memory cell holding `v`:
computes `t0 = now.duration_since(start)` (saturating) and runs the decision
closure through the store's replace protocol. -/
def Gcra.test_and_update (g : Gcra) (start now v : Nat) :
    Except NotUntil StateSnapshot × Nat :=
  InMemoryState.measure_and_replace_one (g.decideOne start (now - start)) v

/-- Modelled from the spec: the `check_only` / `check_n_only` wrappers named by
the spec ("peek variants; same return shapes, no state mutation") are not
present under the provided sources; only `measure_and_peek_one` and its trait
plumbing are.  The peek variant runs the same decision closure as
`Gcra::test_and_update` through the store's peek protocol. -/
def Gcra.test_and_peek (g : Gcra) (start now v : Nat) :
    Except NotUntil StateSnapshot × Nat :=
  InMemoryState.measure_and_peek_one (g.decideOne start (now - start)) v

/-- The decision closure of `Gcra::test_n_all_and_update`
(`governor/src/gcra.rs`) for the batch weight
`additional_weight = t * (n - 1)`: as the single-cell closure, but with
`earliest = (tat + additional_weight).saturating_sub(tau)` and, on admission,
`next = max(tat, t0) + t + additional_weight`. -/
def Gcra.decideNAll (g : Gcra) (start t0 additional_weight : Nat)
    (tatOpt : Option Nat) : Except NotUntil (StateSnapshot × Nat) :=
  let tat := tatOpt.getD t0
  let earliest_time := tat + additional_weight - g.tau
  if t0 < earliest_time then
    .error { state := ⟨g.t, g.tau, earliest_time, earliest_time⟩, start := start }
  else
    let next := max tat t0 + g.t + additional_weight
    .ok (⟨g.t, g.tau, t0, next⟩, next)

/-- `Gcra::test_n_all_and_update` against a single in-memory cell holding `v`:
if `additional_weight = t * (n-1)` exceeds `tau`, return
`InsufficientCapacity(1 + (tau.as_u64() / t.as_u64()) as u32)` before touching
the state; otherwise run the batch decision closure through the store. -/
def Gcra.test_n_all_and_update (g : Gcra) (start : Nat) (n : Nat)
    (now v : Nat) :
    Except InsufficientCapacity (Except NotUntil StateSnapshot) × Nat :=
  let t0 := now - start
  let additional_weight := g.t * (n - 1)
  if g.tau < additional_weight then
    (.error ⟨(1 + g.tau / g.t % u32Mod) % u32Mod⟩, v)
  else
    let p := InMemoryState.measure_and_replace_one
      (g.decideNAll start t0 additional_weight) v
    (.ok p.1, p.2)

/-- The decision closure of `Gcra::test_any_n_and_update`
(`governor/src/gcra.rs`): compute
`max_cells_available = 0` if `tat > t0 + tau`, else
`((t0 + tau).saturating_sub(tat).as_u64() / t.as_u64()) as u32 + 1`
(the division result is truncated to `u32` before the increment), the burst
capacity `1 + (tau.as_u64() / t.as_u64()) as u32`, and admit
`n_to_vend = n.min(max_cells_available).min(burst_capacity)` cells, advancing
the state by `t + t * (n_to_vend - 1)` when `n_to_vend > 0` and leaving
`tat` as the new value otherwise.  The closure is infallible. -/
def Gcra.decideAnyN (g : Gcra) (n : Nat) (t0_nanos : Nat)
    (tatOpt : Option Nat) : Except Empty ((Nat × StateSnapshot) × Nat) :=
  let tat := tatOpt.getD t0_nanos
  let max_cells_available :=
    if t0_nanos + g.tau < tat then 0
    else ((t0_nanos + g.tau - tat) / g.t % u32Mod + 1) % u32Mod
  let burst_capacity := (1 + g.tau / g.t % u32Mod) % u32Mod
  let n_to_vend := min (min n max_cells_available) burst_capacity
  let next :=
    if 0 < n_to_vend then max tat t0_nanos + g.t + g.t * (n_to_vend - 1)
    else tat
  .ok ((n_to_vend, ⟨g.t, g.tau, t0_nanos, next⟩), next)

/-- `Gcra::test_any_n_and_update` against a single in-memory cell holding `v`:
runs the infallible partial-vending closure through the store's replace
protocol (the `Err` case is `Infallible`). -/
def Gcra.test_any_n_and_update (g : Gcra) (start : Nat) (n : Nat)
    (now v : Nat) : (Nat × StateSnapshot) × Nat :=
  let p := InMemoryState.measure_and_replace_one (g.decideAnyN n (now - start)) v
  match p.1 with
  | .ok r => (r, p.2)
  | .error e => e.elim

/-- A keyed state store (`HashMapStateStore` semantics): an association list
from keys to the raw stored cell values; a key that is not present behaves as a
fresh cell holding `0`. -/
def storeGet (store : List (Nat × Nat)) (k : Nat) : Nat :=
  match store.find? (fun kv => kv.1 == k) with
  | some kv => kv.2
  | none => 0

/-- `ShrinkableKeyedStateStore::retain_recent` for the map-backed stores
(`governor/src/state/keyed/hashmap.rs`): keep exactly the entries for which
`is_older_than(drop_below)` is false. -/
def retain_recent (store : List (Nat × Nat)) (drop_below : Nat) :
    List (Nat × Nat) :=
  store.filter (fun kv => ! InMemoryState.is_older_than kv.2 drop_below)

/-- `RateLimiter::retain_recent`'s drop threshold
(`governor/src/state/keyed.rs`): `now.duration_since(start).saturating_sub(t)`. -/
def dropBelow (g : Gcra) (start now : Nat) : Nat :=
  now - start - g.t

/-- The tat value the decision closures operate on: the observed cell value,
with the stored `0` ("never used") read as absent and defaulted to `t0`
(`tat.unwrap_or(t0)` applied to the loaded cell). -/
def observedTat (t0 v : Nat) : Nat :=
  if v = 0 then t0 else v

theorem cellLoad_getD (t0 v : Nat) : (cellLoad v).getD t0 = observedTat t0 v := by
  unfold cellLoad observedTat
  by_cases hv : v = 0 <;> simp [hv]

/-- Closed form of the single-cell decision. -/
theorem test_and_update_eq (g : Gcra) (start now v : Nat) :
    Gcra.test_and_update g start now v =
      (if now - start < observedTat (now - start) v - g.tau then
        (.error ⟨⟨g.t, g.tau, observedTat (now - start) v - g.tau,
                  observedTat (now - start) v - g.tau⟩, start⟩, v)
      else
        (.ok ⟨g.t, g.tau, now - start,
              max (observedTat (now - start) v) (now - start) + g.t⟩,
         max (observedTat (now - start) v) (now - start) + g.t)) := by
  unfold Gcra.test_and_update InMemoryState.measure_and_replace_one Gcra.decideOne
  rw [cellLoad_getD]
  by_cases h : now - start < observedTat (now - start) v - g.tau <;> simp [h]

/-- Closed form of the peek variant of the single-cell decision. -/
theorem test_and_peek_eq (g : Gcra) (start now v : Nat) :
    Gcra.test_and_peek g start now v =
      ((Gcra.test_and_update g start now v).1, v) := by
  unfold Gcra.test_and_peek Gcra.test_and_update InMemoryState.measure_and_peek_one
    InMemoryState.measure_and_replace_one
  cases g.decideOne start (now - start) (cellLoad v) <;> simp

/-- Closed form of the all-or-nothing batch decision. -/
theorem test_n_all_and_update_eq (g : Gcra) (start : Nat) (n : Nat)
    (now v : Nat) :
    Gcra.test_n_all_and_update g start n now v =
      (if g.tau < g.t * (n - 1) then
        (.error ⟨(1 + g.tau / g.t % u32Mod) % u32Mod⟩, v)
      else if now - start <
          observedTat (now - start) v + g.t * (n - 1) - g.tau then
        (.ok (.error ⟨⟨g.t, g.tau,
              observedTat (now - start) v + g.t * (n - 1) - g.tau,
              observedTat (now - start) v + g.t * (n - 1) - g.tau⟩, start⟩), v)
      else
        (.ok (.ok ⟨g.t, g.tau, now - start,
              max (observedTat (now - start) v) (now - start) + g.t
                + g.t * (n - 1)⟩),
         max (observedTat (now - start) v) (now - start) + g.t
           + g.t * (n - 1))) := by
  unfold Gcra.test_n_all_and_update InMemoryState.measure_and_replace_one
    Gcra.decideNAll
  simp only [cellLoad_getD]
  by_cases hcap : g.tau < g.t * (n - 1)
  · simp [hcap]
  · by_cases h : now - start <
        observedTat (now - start) v + g.t * (n - 1) - g.tau <;> simp [hcap, h]

/-- Closed form of the partial-vending batch decision. -/
theorem test_any_n_and_update_eq (g : Gcra) (start : Nat) (n : Nat)
    (now v : Nat) :
    Gcra.test_any_n_and_update g start n now v =
      (let t0 := now - start
      let tat := observedTat t0 v
      let max_cells_available :=
        if t0 + g.tau < tat then 0
        else ((t0 + g.tau - tat) / g.t % u32Mod + 1) % u32Mod
      let burst_capacity := (1 + g.tau / g.t % u32Mod) % u32Mod
      let n_to_vend := min (min n max_cells_available) burst_capacity
      let next :=
        if 0 < n_to_vend then max tat t0 + g.t + g.t * (n_to_vend - 1)
        else tat
      ((n_to_vend, ⟨g.t, g.tau, t0, next⟩), next)) := by
  unfold Gcra.test_any_n_and_update InMemoryState.measure_and_replace_one
    Gcra.decideAnyN
  rw [cellLoad_getD]

/-- C1: the single-cell decision (`Gcra::test_and_update`, backing
`check`/`check_key`): with `t0 = now.duration_since(start)` and the prior
stored tat (absent/zero read as `t0`), the cell is denied iff
`t0 < tat.saturating_sub(tau)`; on denial the returned snapshot carries
`earliest_admissible_tat = tat.saturating_sub(tau)`; on admission the newly
installed tat is `max(tat, t0) + t`, hence at least `tat + t` and at least
`t0 + t`. -/
theorem gcra_single_cell_decision (g : Gcra) (start now v : Nat) :
    ((∃ nu, (Gcra.test_and_update g start now v).1 = .error nu) ↔
      now - start < observedTat (now - start) v - g.tau) ∧
    (∀ nu, (Gcra.test_and_update g start now v).1 = .error nu →
      nu.state.tat = observedTat (now - start) v - g.tau) ∧
    (∀ s, (Gcra.test_and_update g start now v).1 = .ok s →
      (Gcra.test_and_update g start now v).2 =
          max (observedTat (now - start) v) (now - start) + g.t ∧
      s = ⟨g.t, g.tau, now - start,
           max (observedTat (now - start) v) (now - start) + g.t⟩ ∧
      observedTat (now - start) v + g.t ≤ (Gcra.test_and_update g start now v).2 ∧
      now - start + g.t ≤ (Gcra.test_and_update g start now v).2) := by
  rw [test_and_update_eq]
  by_cases h : now - start < observedTat (now - start) v - g.tau
  · simp [h]
  · rw [if_neg h]
    refine ⟨iff_of_false (by simp) h, by intro nu hnu; simp at hnu, ?_⟩
    intro s hs
    simp only [Except.ok.injEq] at hs
    exact ⟨rfl, hs.symm, Nat.add_le_add_right (Nat.le_max_left _ _) _,
           Nat.add_le_add_right (Nat.le_max_right _ _) _⟩

/-- Witness for C1: a quota of 2 cells per second (t = tau = 500ms); a denial
at `now = start` against a stored tat of 1.5s, and an admission from a fresh
cell. -/
theorem gcra_single_cell_decision_witness :
    ((Gcra.test_and_update (Gcra.new (Quota.per_second 2)) 0 0 1500000000).1 =
        .error ⟨⟨500000000, 500000000, 1000000000, 1000000000⟩, 0⟩) ∧
    (⟨⟨500000000, 500000000, 1000000000, 1000000000⟩, 0⟩ : NotUntil).state.tat =
        observedTat (0 - 0) 1500000000 - (Gcra.new (Quota.per_second 2)).tau ∧
    (Gcra.test_and_update (Gcra.new (Quota.per_second 2)) 0 0 0).2 =
        max (observedTat (0 - 0) 0) (0 - 0) + (Gcra.new (Quota.per_second 2)).t :=
  ⟨by decide,
   (gcra_single_cell_decision (Gcra.new (Quota.per_second 2)) 0 0 1500000000).2.1
     ⟨⟨500000000, 500000000, 1000000000, 1000000000⟩, 0⟩ (by decide),
   ((gcra_single_cell_decision (Gcra.new (Quota.per_second 2)) 0 0 0).2.2
     ⟨500000000, 500000000, 0, 500000000⟩ (by decide)).1⟩

/-- C2: the all-or-nothing batch decision (`Gcra::test_n_all_and_update`,
backing `check_n`/`check_key_n`): for quota-derived parameters and `n ≥ 1`,
the condition `t·(n−1) > tau` is equivalent to `n > max_burst`; in that case
the call returns `InsufficientCapacity(1 + tau/t) = InsufficientCapacity(max_burst)`
with the state untouched (for every stored value); otherwise it proceeds as the
single-cell decision with `earliest = (tat + t·(n−1)).saturating_sub(tau)` and,
on admission, installs `max(tat, t0) + t + t·(n−1) = max(tat, t0) + n·t`. -/
theorem gcra_batch_all_decision (q : Quota) (start : Nat) (n : Nat)
    (now v : Nat) (hb1 : 1 ≤ q.max_burst) (hb2 : q.max_burst < u32Mod)
    (hn : 1 ≤ n) :
    ((Gcra.new q).tau < (Gcra.new q).t * (n - 1) ↔ q.max_burst < n) ∧
    (q.max_burst < n →
      Gcra.test_n_all_and_update (Gcra.new q) start n now v =
        (.error ⟨q.max_burst⟩, v)) ∧
    (n ≤ q.max_burst →
      Gcra.test_n_all_and_update (Gcra.new q) start n now v =
        (if now - start < observedTat (now - start) v
            + (Gcra.new q).t * (n - 1) - (Gcra.new q).tau then
          (.ok (.error ⟨⟨(Gcra.new q).t, (Gcra.new q).tau,
            observedTat (now - start) v + (Gcra.new q).t * (n - 1)
              - (Gcra.new q).tau,
            observedTat (now - start) v + (Gcra.new q).t * (n - 1)
              - (Gcra.new q).tau⟩, start⟩), v)
        else
          (.ok (.ok ⟨(Gcra.new q).t, (Gcra.new q).tau, now - start,
            max (observedTat (now - start) v) (now - start)
              + n * (Gcra.new q).t⟩),
           max (observedTat (now - start) v) (now - start)
             + n * (Gcra.new q).t))) := by
  have hu : u32Mod = 4294967296 := rfl
  have ht : 0 < (Gcra.new q).t := lt_of_lt_of_le one_pos (le_max_right _ _)
  have htau : (Gcra.new q).tau = (Gcra.new q).t * (q.max_burst - 1) := rfl
  have hiff : (Gcra.new q).tau < (Gcra.new q).t * (n - 1) ↔ q.max_burst < n := by
    constructor
    · intro hlt
      by_contra hc
      have hle1 : n - 1 ≤ q.max_burst - 1 := by omega
      have hle2 : (Gcra.new q).t * (n - 1) ≤ (Gcra.new q).t * (q.max_burst - 1) :=
        Nat.mul_le_mul (le_refl _) hle1
      have hx : (Gcra.new q).tau < (Gcra.new q).t * (q.max_burst - 1) :=
        lt_of_lt_of_le hlt hle2
      rw [htau] at hx
      exact lt_irrefl _ hx
    · intro hbn
      have hlt1 : q.max_burst - 1 < n - 1 := by omega
      rw [htau]
      exact mul_lt_mul_of_pos_left hlt1 ht
  have hdiv : (Gcra.new q).tau / (Gcra.new q).t = q.max_burst - 1 := by
    show (Gcra.new q).t * (q.max_burst - 1) / (Gcra.new q).t = _
    exact Nat.mul_div_cancel_left _ ht
  refine ⟨hiff, ?_, ?_⟩
  · intro hlt
    rw [test_n_all_and_update_eq, if_pos (hiff.mpr hlt)]
    have hmod : (1 + (Gcra.new q).tau / (Gcra.new q).t % u32Mod) % u32Mod =
        q.max_burst := by
      rw [hdiv]
      have h1 : (q.max_burst - 1) % u32Mod = q.max_burst - 1 :=
        Nat.mod_eq_of_lt (by omega)
      rw [h1]
      have h2 : 1 + (q.max_burst - 1) = q.max_burst := by omega
      rw [h2]
      exact Nat.mod_eq_of_lt (by omega)
    rw [hmod]
  · intro hle
    rw [test_n_all_and_update_eq,
      if_neg (by rw [hiff]; omega)]
    have hnt : (Gcra.new q).t + (Gcra.new q).t * (n - 1) = n * (Gcra.new q).t := by
      obtain ⟨m, rfl⟩ : ∃ m, n = m + 1 := ⟨n - 1, by omega⟩
      have hm : m + 1 - 1 = m := rfl
      rw [hm]
      ring
    by_cases h : now - start < observedTat (now - start) v
        + (Gcra.new q).t * (n - 1) - (Gcra.new q).tau
    · rw [if_pos h, if_pos h]
    · rw [if_neg h, if_neg h, Nat.add_assoc, hnt]

/-- Witness for C2: quota of 5 per second (t = 200ms, tau = 800ms); a batch of
15 yields `InsufficientCapacity(5)` leaving the state at its prior value, while
a batch of 5 from a fresh cell is admitted, installing tat `5·t = 1s`. -/
theorem gcra_batch_all_decision_witness :
    (Gcra.test_n_all_and_update (Gcra.new (Quota.per_second 5)) 0 15 0 0 =
      (.error ⟨5⟩, 0)) ∧
    (Gcra.test_n_all_and_update (Gcra.new (Quota.per_second 5)) 0 5 0 0 =
      (.ok (.ok ⟨200000000, 800000000, 0, 1000000000⟩), 1000000000)) :=
  ⟨(gcra_batch_all_decision (Quota.per_second 5) 0 15 0 0 (by decide)
      (by decide) (by decide)).2.1 (by decide),
   by
    rw [(gcra_batch_all_decision (Quota.per_second 5) 0 5 0 0 (by decide)
      (by decide) (by decide)).2.2 (by decide)]
    decide⟩

/-- Burst capacity expression of the decision functions:
`1 + (tau.as_u64() / t.as_u64()) as u32` equals `max_burst` for quota-derived
parameters with `max_burst` in `u32` range. -/
theorem gcra_burst_capacity_eq (q : Quota) (hb1 : 1 ≤ q.max_burst)
    (hb2 : q.max_burst < u32Mod) :
    (1 + (Gcra.new q).tau / (Gcra.new q).t % u32Mod) % u32Mod = q.max_burst := by
  have hu : u32Mod = 4294967296 := rfl
  have ht : 0 < (Gcra.new q).t := lt_of_lt_of_le one_pos (le_max_right _ _)
  have hdiv : (Gcra.new q).tau / (Gcra.new q).t = q.max_burst - 1 := by
    show (Gcra.new q).t * (q.max_burst - 1) / (Gcra.new q).t = _
    exact Nat.mul_div_cancel_left _ ht
  rw [hdiv]
  have h1 : (q.max_burst - 1) % u32Mod = q.max_burst - 1 :=
    Nat.mod_eq_of_lt (by omega)
  rw [h1]
  have h2 : 1 + (q.max_burst - 1) = q.max_burst := by omega
  rw [h2]
  exact Nat.mod_eq_of_lt (by omega)

/-- Counterexample to C3 as stated: with `t = 1ns`, `tau = 10ns` (a quota of
burst 11 replenishing one cell per nanosecond), stored tat 6 and
`t0 = 2^32 - 4`, the available-cell count is `2^32 + 1`, whose `as u32` cast
truncates to `0`; `check_any_n(5)` therefore admits only 1 cell, while the
claimed formula `min(n, (t0 + tau − tat)/t + 1, 1 + tau/t)` gives 5. -/
theorem gcra_any_n_truncation_counterexample :
    (Gcra.test_any_n_and_update (Gcra.new ⟨11, 1⟩) 0 5 4294967292 6).1.1 = 1 ∧
    min (min 5 ((4294967292 - 0 + (Gcra.new ⟨11, 1⟩).tau
          - observedTat (4294967292 - 0) 6) / (Gcra.new ⟨11, 1⟩).t + 1))
        (1 + (Gcra.new ⟨11, 1⟩).tau / (Gcra.new ⟨11, 1⟩).t) = 5 ∧
    (Gcra.test_any_n_and_update (Gcra.new ⟨11, 1⟩) 0 5 4294967292 6).1.1 ≠
      min (min 5 ((4294967292 - 0 + (Gcra.new ⟨11, 1⟩).tau
          - observedTat (4294967292 - 0) 6) / (Gcra.new ⟨11, 1⟩).t + 1))
        (1 + (Gcra.new ⟨11, 1⟩).tau / (Gcra.new ⟨11, 1⟩).t) := by
  decide

/-- The available-cell count computed by `Gcra::test_any_n_and_update`,
including the `as u32` truncation of the division result and the `u32`
increment. -/
def anyAvail (g : Gcra) (t0 v : Nat) : Nat :=
  if t0 + g.tau < observedTat t0 v then 0
  else ((t0 + g.tau - observedTat t0 v) / g.t % u32Mod + 1) % u32Mod

/-- The burst-capacity bound computed by `Gcra::test_any_n_and_update`
(`1 + (tau.as_u64() / t.as_u64()) as u32`). -/
def anyCap (g : Gcra) : Nat :=
  (1 + g.tau / g.t % u32Mod) % u32Mod

/-- The number of cells `Gcra::test_any_n_and_update` admits:
`n.min(max_cells_available).min(burst_capacity)`. -/
def anyK (g : Gcra) (t0 : Nat) (n : Nat) (v : Nat) : Nat :=
  min (min n (anyAvail g t0 v)) (anyCap g)

/-- The value `Gcra::test_any_n_and_update` installs in the cell. -/
def anyNext (g : Gcra) (t0 : Nat) (n : Nat) (v : Nat) : Nat :=
  if 0 < anyK g t0 n v then
    max (observedTat t0 v) t0 + g.t + g.t * (anyK g t0 n v - 1)
  else observedTat t0 v

/-- The partial-vending decision, phrased with its named components. -/
theorem test_any_n_result (g : Gcra) (start : Nat) (n : Nat) (now v : Nat) :
    Gcra.test_any_n_and_update g start n now v =
      ((anyK g (now - start) n v,
        ⟨g.t, g.tau, now - start, anyNext g (now - start) n v⟩),
       anyNext g (now - start) n v) := by
  rw [test_any_n_and_update_eq]
  rfl

/-- C3 (amended): the partial-vending batch decision
(`Gcra::test_any_n_and_update`, backing `check_any_n`) never fails; provided
the computed available-cell count fits in `u32`
(`(t0 + tau − tat)/t + 1 < 2^32`; otherwise the `as u32` cast truncates it),
it admits exactly `k = min(n, max_available, max_burst)` cells with
`max_available = 0` if `tat > t0 + tau` and `(t0 + tau − tat)/t + 1`
otherwise; if `k > 0` the installed tat is `max(tat, t0) + t + (k−1)·t`, and
if `k = 0` the stored value is exactly unchanged; consequently
`k ≤ min(n, max_burst)`. -/
theorem gcra_any_n_decision_amended (q : Quota) (start : Nat) (n : Nat)
    (now v : Nat) (hb1 : 1 ≤ q.max_burst) (hb2 : q.max_burst < u32Mod)
    (hn : 1 ≤ n)
    (htr : (now - start + (Gcra.new q).tau - observedTat (now - start) v)
        / (Gcra.new q).t + 1 < u32Mod) :
    ((Gcra.test_any_n_and_update (Gcra.new q) start n now v).1.1 =
      min (min n
        (if now - start + (Gcra.new q).tau < observedTat (now - start) v then 0
         else (now - start + (Gcra.new q).tau - observedTat (now - start) v)
            / (Gcra.new q).t + 1)) q.max_burst) ∧
    (0 < (Gcra.test_any_n_and_update (Gcra.new q) start n now v).1.1 →
      (Gcra.test_any_n_and_update (Gcra.new q) start n now v).2 =
        max (observedTat (now - start) v) (now - start) + (Gcra.new q).t
          + (Gcra.new q).t
            * ((Gcra.test_any_n_and_update (Gcra.new q) start n now v).1.1 - 1)) ∧
    ((Gcra.test_any_n_and_update (Gcra.new q) start n now v).1.1 = 0 →
      (Gcra.test_any_n_and_update (Gcra.new q) start n now v).2 = v) ∧
    (Gcra.test_any_n_and_update (Gcra.new q) start n now v).1.1 ≤
      min n q.max_burst := by
  have hu : u32Mod = 4294967296 := rfl
  have hcap : anyCap (Gcra.new q) = q.max_burst :=
    gcra_burst_capacity_eq q hb1 hb2
  have havail : anyAvail (Gcra.new q) (now - start) v =
      (if now - start + (Gcra.new q).tau < observedTat (now - start) v then 0
       else (now - start + (Gcra.new q).tau - observedTat (now - start) v)
          / (Gcra.new q).t + 1) := by
    unfold anyAvail
    by_cases hrl : now - start + (Gcra.new q).tau < observedTat (now - start) v
    · rw [if_pos hrl, if_pos hrl]
    · rw [if_neg hrl, if_neg hrl]
      have h1 : (now - start + (Gcra.new q).tau - observedTat (now - start) v)
          / (Gcra.new q).t % u32Mod =
          (now - start + (Gcra.new q).tau - observedTat (now - start) v)
          / (Gcra.new q).t :=
        Nat.mod_eq_of_lt (lt_trans (Nat.lt_succ_self _) htr)
      rw [h1]
      exact Nat.mod_eq_of_lt htr
  have hK : anyK (Gcra.new q) (now - start) n v =
      min (min n (anyAvail (Gcra.new q) (now - start) v)) q.max_burst := by
    rw [anyK, hcap]
  rw [test_any_n_result]
  refine ⟨?_, ?_, ?_, ?_⟩
  · show anyK (Gcra.new q) (now - start) n v = _
    rw [hK, havail]
  · intro hk
    have hk1 : 0 < anyK (Gcra.new q) (now - start) n v := hk
    show anyNext (Gcra.new q) (now - start) n v =
      max (observedTat (now - start) v) (now - start) + (Gcra.new q).t
        + (Gcra.new q).t * (anyK (Gcra.new q) (now - start) n v - 1)
    rw [anyNext, if_pos hk1]
  · intro hk
    have hk1 : anyK (Gcra.new q) (now - start) n v = 0 := hk
    have hk2 : min (min n (anyAvail (Gcra.new q) (now - start) v)) q.max_burst
        = 0 := by
      rw [← hK]
      exact hk1
    have hA0 : anyAvail (Gcra.new q) (now - start) v = 0 := by omega
    show anyNext (Gcra.new q) (now - start) n v = v
    rw [anyNext, if_neg (by omega : ¬ 0 < anyK (Gcra.new q) (now - start) n v)]
    have hrl : now - start + (Gcra.new q).tau < observedTat (now - start) v := by
      by_contra hc
      rw [havail, if_neg hc] at hA0
      exact Nat.succ_ne_zero _ hA0
    unfold observedTat at hrl ⊢
    by_cases hv : v = 0
    · rw [if_pos hv] at hrl
      exact absurd hrl (Nat.not_lt.mpr (Nat.le_add_right _ _))
    · rw [if_neg hv]
  · show anyK (Gcra.new q) (now - start) n v ≤ min n q.max_burst
    omega

/-- Witness for C3 (amended): a quota of 10 per second (t = 100ms, tau =
900ms); `check_any_n(7)` from a fresh cell admits exactly 7 cells and installs
tat 700ms. -/
theorem gcra_any_n_decision_amended_witness :
    (Gcra.test_any_n_and_update (Gcra.new (Quota.per_second 10)) 0 7 0 0).1.1
        = 7 ∧
    (Gcra.test_any_n_and_update (Gcra.new (Quota.per_second 10)) 0 7 0 0).2
        = 700000000 := by
  have h := gcra_any_n_decision_amended (Quota.per_second 10) 0 7 0 0
    (by decide) (by decide) (by decide) (by decide)
  refine ⟨?_, ?_⟩
  · rw [h.1]
    decide
  · rw [h.2.1 (by rw [h.1]; decide)]
    rw [h.1]
    decide

/-- C4: for snapshots carrying quota-derived parameters,
`remaining_burst_capacity = floor(min((now + tau + t − tat), (tau + t)) / t)`
lands in `[0, max_burst]`; and under a per-second(4) quota four successive
checks report remaining burst capacities 3, 2, 1, 0, while a fifth check is
denied. -/
theorem remaining_burst_capacity_spec :
    (∀ (q : Quota) (tm tat : Nat), 1 ≤ q.max_burst →
      StateSnapshot.remaining_burst_capacity
        ⟨(Gcra.new q).t, (Gcra.new q).tau, tm, tat⟩ ≤ q.max_burst) ∧
    (let r1 := Gcra.test_and_update (Gcra.new (Quota.per_second 4)) 0 0 0
     let r2 := Gcra.test_and_update (Gcra.new (Quota.per_second 4)) 0 0 r1.2
     let r3 := Gcra.test_and_update (Gcra.new (Quota.per_second 4)) 0 0 r2.2
     let r4 := Gcra.test_and_update (Gcra.new (Quota.per_second 4)) 0 0 r3.2
     let r5 := Gcra.test_and_update (Gcra.new (Quota.per_second 4)) 0 0 r4.2
     r1.1.map StateSnapshot.remaining_burst_capacity = .ok 3 ∧
     r2.1.map StateSnapshot.remaining_burst_capacity = .ok 2 ∧
     r3.1.map StateSnapshot.remaining_burst_capacity = .ok 1 ∧
     r4.1.map StateSnapshot.remaining_burst_capacity = .ok 0 ∧
     r5.1 = .error ⟨⟨250000000, 750000000, 250000000, 250000000⟩, 0⟩) := by
  refine ⟨?_, by decide⟩
  intro q tm tat hb1
  have ht : 0 < (Gcra.new q).t := lt_of_lt_of_le one_pos (le_max_right _ _)
  have hsum : (Gcra.new q).tau + (Gcra.new q).t =
      (Gcra.new q).t * q.max_burst := by
    show (Gcra.new q).t * (q.max_burst - 1) + (Gcra.new q).t = _
    obtain ⟨m, hm⟩ : ∃ m, q.max_burst = m + 1 := ⟨q.max_burst - 1, by omega⟩
    rw [hm]
    have hm1 : m + 1 - 1 = m := rfl
    rw [hm1]
    ring
  show min (tm + (Gcra.new q).tau + (Gcra.new q).t - tat)
      ((Gcra.new q).tau + (Gcra.new q).t) / (Gcra.new q).t ≤ q.max_burst
  calc min (tm + (Gcra.new q).tau + (Gcra.new q).t - tat)
        ((Gcra.new q).tau + (Gcra.new q).t) / (Gcra.new q).t
      ≤ ((Gcra.new q).tau + (Gcra.new q).t) / (Gcra.new q).t :=
        Nat.div_le_div_right (min_le_right _ _)
    _ = q.max_burst := by
        rw [hsum]
        exact Nat.mul_div_cancel_left _ ht

/-- Witness for C4's clamp conjunct: the fresh-state snapshot of the
per-second(4) quota has remaining burst capacity at most 4. -/
theorem remaining_burst_capacity_spec_witness :
    StateSnapshot.remaining_burst_capacity
      ⟨(Gcra.new (Quota.per_second 4)).t, (Gcra.new (Quota.per_second 4)).tau,
       0, 0⟩ ≤ (Quota.per_second 4).max_burst :=
  remaining_burst_capacity_spec.1 (Quota.per_second 4) 0 0 (by decide)

/-- C5: denial is honest.  If a single-cell check at `now` is denied with a
`NotUntil` `nu`, then `nu.earliest_possible() = start + tat.saturating_sub(tau)`,
the denial leaves the stored value unchanged, a check performed at exactly
`nu.earliest_possible()` (with no intervening operations) is admitted, and
`wait_time_from(from)` is exactly `earliest_possible() − from`, saturating at
zero. -/
theorem denial_is_honest (g : Gcra) (start now v : Nat) (nu : NotUntil)
    (hden : (Gcra.test_and_update g start now v).1 = .error nu) :
    nu.earliest_possible = start + (observedTat (now - start) v - g.tau) ∧
    (Gcra.test_and_update g start now v).2 = v ∧
    (∃ s, (Gcra.test_and_update g start nu.earliest_possible v).1 = .ok s) ∧
    (∀ frm, nu.wait_time_from frm = nu.earliest_possible - frm) := by
  rw [test_and_update_eq] at hden
  by_cases h : now - start < observedTat (now - start) v - g.tau
  · rw [if_pos h] at hden
    simp only [Except.error.injEq] at hden
    subst hden
    have hv : v ≠ 0 := by
      intro hv0
      subst hv0
      simp [observedTat] at h
      omega
    have htat : observedTat (now - start) v = v := by
      simp only [observedTat, if_neg hv]
    rw [htat] at h ⊢
    simp only [NotUntil.earliest_possible]
    refine ⟨trivial, ?_, ?_, ?_⟩
    · rw [test_and_update_eq, htat, if_pos h]
    · rw [test_and_update_eq]
      rw [if_neg]
      · exact ⟨_, rfl⟩
      · simp only [observedTat, if_neg hv]
        omega
    · intro frm
      simp only [NotUntil.wait_time_from, NotUntil.earliest_possible]
      omega
  · rw [if_neg h] at hden
    simp at hden

/-- Witness for C5: a quota of 1 per second (t = 1s, tau = 0), stored tat 2s,
check at `now = start = 0`: the check is denied, the wait hint points at 2s,
and the check repeated at exactly that instant is admitted. -/
theorem denial_is_honest_witness :
    ((⟨⟨1000000000, 0, 2000000000, 2000000000⟩, 0⟩ : NotUntil).earliest_possible
      = 0 + (observedTat (0 - 0) 2000000000
          - (Gcra.new (Quota.per_second 1)).tau)) ∧
    (∃ s, (Gcra.test_and_update (Gcra.new (Quota.per_second 1)) 0
        (⟨⟨1000000000, 0, 2000000000, 2000000000⟩, 0⟩ : NotUntil).earliest_possible
        2000000000).1 = .ok s) ∧
    (⟨⟨1000000000, 0, 2000000000, 2000000000⟩, 0⟩ : NotUntil).wait_time_from 500000000
      = (⟨⟨1000000000, 0, 2000000000, 2000000000⟩, 0⟩ : NotUntil).earliest_possible
        - 500000000 :=
  ⟨(denial_is_honest (Gcra.new (Quota.per_second 1)) 0 0 2000000000
      ⟨⟨1000000000, 0, 2000000000, 2000000000⟩, 0⟩ (by decide)).1,
   (denial_is_honest (Gcra.new (Quota.per_second 1)) 0 0 2000000000
      ⟨⟨1000000000, 0, 2000000000, 2000000000⟩, 0⟩ (by decide)).2.2.1,
   (denial_is_honest (Gcra.new (Quota.per_second 1)) 0 0 2000000000
      ⟨⟨1000000000, 0, 2000000000, 2000000000⟩, 0⟩ (by decide)).2.2.2 500000000⟩

/-- Round-trip core: for a quota with positive burst (in `u32` range) and a
replenish interval of at least one nanosecond, `Quota::from_gcra_parameters`
inverts `Gcra::new`. -/
theorem quota_roundtrip_core (q : Quota) (hb1 : 1 ≤ q.max_burst)
    (hb2 : q.max_burst < u32Mod) (hr : 1 ≤ q.replenish_1_per) :
    Quota.from_gcra_parameters (Gcra.new q).t (Gcra.new q).tau = q := by
  have hmb : (1 + (Gcra.new q).tau / (Gcra.new q).t % u32Mod) % u32Mod =
      q.max_burst := gcra_burst_capacity_eq q hb1 hb2
  have hteq : (Gcra.new q).t = q.replenish_1_per := max_eq_left hr
  show ({ max_burst := (1 + (Gcra.new q).tau / (Gcra.new q).t % u32Mod) % u32Mod,
          replenish_1_per := (Gcra.new q).t } : Quota) = q
  rw [hmb, hteq]

/-- Counterexample to C7 as stated ("quantified in particular over
`per_second(n).allow_burst(b)` for all positive n, b"): for
`n = 10^9 + 1 > 10^9` the computed replenish interval floors to 0 ns, and
`Gcra::new`'s 1-nanosecond clamp makes the round trip return a quota with a
1 ns replenish interval instead. -/
theorem quota_roundtrip_counterexample :
    Quota.from_gcra_parameters
      (Gcra.new ((Quota.per_second 1000000001).allow_burst 1)).t
      (Gcra.new ((Quota.per_second 1000000001).allow_burst 1)).tau ≠
    (Quota.per_second 1000000001).allow_burst 1 := by
  decide

/-- C7 (amended): for every valid quota — positive burst in `u32` range and a
positive (≥ 1 ns) replenish interval — mapping through `Gcra::new` and back
with `Quota::from_gcra_parameters` is the identity; in particular for
`per_second(n).allow_burst(b)` whenever `1 ≤ n ≤ 10^9` (so that the computed
replenish interval is positive) and `1 ≤ b < 2^32`. -/
theorem quota_roundtrip_amended :
    (∀ q : Quota, 1 ≤ q.max_burst → q.max_burst < u32Mod →
      1 ≤ q.replenish_1_per →
      Quota.from_gcra_parameters (Gcra.new q).t (Gcra.new q).tau = q) ∧
    (∀ n b : Nat, 1 ≤ n → n ≤ 1000000000 → 1 ≤ b → b < u32Mod →
      Quota.from_gcra_parameters
        (Gcra.new ((Quota.per_second n).allow_burst b)).t
        (Gcra.new ((Quota.per_second n).allow_burst b)).tau =
      (Quota.per_second n).allow_burst b) := by
  refine ⟨quota_roundtrip_core, ?_⟩
  intro n b hn1 hn2 hb1 hb2
  refine quota_roundtrip_core _ hb1 hb2 ?_
  show 1 ≤ 1000000000 / n
  exact (Nat.one_le_div_iff (by omega)).mpr hn2

/-- Witness for C7 (amended): two cells per hour-scale example — the quota of
2 per second with burst 90 round-trips exactly. -/
theorem quota_roundtrip_amended_witness :
    Quota.from_gcra_parameters
      (Gcra.new ((Quota.per_second 2).allow_burst 90)).t
      (Gcra.new ((Quota.per_second 2).allow_burst 90)).tau =
    (Quota.per_second 2).allow_burst 90 :=
  quota_roundtrip_amended.2 2 90 (by decide) (by decide) (by decide) (by decide)

/-- A peek restores the originally observed value: the final cell value of
`measure_and_peek_one` is the initial one, whatever the decision closure
returns. -/
theorem measure_and_peek_one_state {T E : Type}
    (f : Option Nat → Except E (T × Nat)) (v : Nat) :
    (InMemoryState.measure_and_peek_one f v).2 = v := by
  unfold InMemoryState.measure_and_peek_one
  cases h : f (cellLoad v) with
  | ok p =>
    obtain ⟨r, nd⟩ := p
    rfl
  | error e => rfl

/-- C8: peek idempotence.  A peek (`measure_and_peek_one`) leaves the stored
value unchanged; hence two successive peeks with the same decide function
yield identical outcomes, a peek followed by the mutating protocol
(`measure_and_replace_one`) gives the same result as the mutating protocol
alone, and at the GCRA level the peek variant of the single-cell check returns
exactly the verdict of `test_and_update` with the state unchanged. -/
theorem peek_idempotence :
    (∀ (T E : Type) (f : Option Nat → Except E (T × Nat)) (v : Nat),
      (InMemoryState.measure_and_peek_one f v).2 = v) ∧
    (∀ (T E : Type) (f : Option Nat → Except E (T × Nat)) (v : Nat),
      InMemoryState.measure_and_peek_one f
          (InMemoryState.measure_and_peek_one f v).2 =
        InMemoryState.measure_and_peek_one f v) ∧
    (∀ (T E : Type) (f : Option Nat → Except E (T × Nat)) (v : Nat),
      (InMemoryState.measure_and_replace_one f
          (InMemoryState.measure_and_peek_one f v).2).1 =
        (InMemoryState.measure_and_replace_one f v).1) ∧
    (∀ (g : Gcra) (start now v : Nat),
      Gcra.test_and_peek g start now v =
        ((Gcra.test_and_update g start now v).1, v)) := by
  refine ⟨?_, ?_, ?_, test_and_peek_eq⟩
  · intro T E f v
    exact measure_and_peek_one_state f v
  · intro T E f v
    rw [measure_and_peek_one_state]
  · intro T E f v
    rw [measure_and_peek_one_state]

/-- C9: error atomicity of the state cell.  If the decide function returns
`Err(e)` on the observed value, `measure_and_replace_one` returns that error
unchanged and the stored value is exactly what it was (the retry loop body —
and hence any compare-exchange — never runs); in particular a denied
single-cell check consumes no capacity and leaves the theoretical arrival
time untouched. -/
theorem error_atomicity :
    (∀ (T E : Type) (f : Option Nat → Except E (T × Nat)) (v : Nat) (e : E),
      f (cellLoad v) = .error e →
      InMemoryState.measure_and_replace_one f v = (.error e, v)) ∧
    (∀ (g : Gcra) (start now v : Nat) (nu : NotUntil),
      (Gcra.test_and_update g start now v).1 = .error nu →
      (Gcra.test_and_update g start now v).2 = v ∧
      Gcra.test_and_update g start now v = (.error nu, v)) := by
  constructor
  · intro T E f v e h
    simp only [InMemoryState.measure_and_replace_one, h]
  · intro g start now v nu hden
    rw [test_and_update_eq] at hden ⊢
    by_cases h : now - start < observedTat (now - start) v - g.tau
    · rw [if_pos h] at hden ⊢
      simp only [Except.error.injEq] at hden
      subst hden
      exact ⟨rfl, rfl⟩
    · rw [if_neg h] at hden
      simp at hden

/-- Witness for C9: a constant-error decide function leaves the cell at 5; a
denied check against stored tat 1.6s under the 2-per-second quota leaves the
cell at 1.6s. -/
theorem error_atomicity_witness :
    InMemoryState.measure_and_replace_one
      (fun _ => (.error 7 : Except Nat (Nat × Nat))) 5 = (.error 7, 5) ∧
    (Gcra.test_and_update (Gcra.new (Quota.per_second 2)) 0 0 1600000000).2 =
      1600000000 :=
  ⟨error_atomicity.1 Nat Nat (fun _ => .error 7) 5 7 rfl,
   (error_atomicity.2 (Gcra.new (Quota.per_second 2)) 0 0 1600000000
      ⟨⟨500000000, 500000000, 1100000000, 1100000000⟩, 0⟩ (by decide)).1⟩

/-- For quota-derived parameters with burst in `u32` range and `n ≥ 1`, a
partial-vending call that admits zero cells rewrites the cell with its prior
(nonzero) value, leaving it unchanged. -/
theorem anyK_zero_unchanged (q : Quota) (t0 n v : Nat) (hb1 : 1 ≤ q.max_burst)
    (hb2 : q.max_burst < u32Mod) (hn : 1 ≤ n)
    (hk : anyK (Gcra.new q) t0 n v = 0) : anyNext (Gcra.new q) t0 n v = v := by
  have hu : u32Mod = 4294967296 := rfl
  have ht : 0 < (Gcra.new q).t := lt_of_lt_of_le one_pos (le_max_right _ _)
  have hdiv : (Gcra.new q).tau / (Gcra.new q).t = q.max_burst - 1 := by
    show (Gcra.new q).t * (q.max_burst - 1) / (Gcra.new q).t = _
    exact Nat.mul_div_cancel_left _ ht
  have hcap : anyCap (Gcra.new q) = q.max_burst :=
    gcra_burst_capacity_eq q hb1 hb2
  have hk2 : min (min n (anyAvail (Gcra.new q) t0 v)) (anyCap (Gcra.new q))
      = 0 := hk
  have hA0 : anyAvail (Gcra.new q) t0 v = 0 := by
    rw [hcap] at hk2
    omega
  have hv : v ≠ 0 := by
    intro hv0
    subst hv0
    have hobs : observedTat t0 0 = t0 := by simp [observedTat]
    have hav : anyAvail (Gcra.new q) t0 0 = q.max_burst := by
      unfold anyAvail
      rw [hobs, if_neg (by omega)]
      have hc1 : t0 + (Gcra.new q).tau - t0 = (Gcra.new q).tau := by omega
      rw [hc1, hdiv]
      have h1 : (q.max_burst - 1) % u32Mod = q.max_burst - 1 :=
        Nat.mod_eq_of_lt (by omega)
      rw [h1]
      have h2 : q.max_burst - 1 + 1 = q.max_burst := by omega
      rw [h2]
      exact Nat.mod_eq_of_lt (by omega)
    omega
  unfold anyNext
  rw [if_neg (by omega)]
  unfold observedTat
  rw [if_neg hv]

/-- C10: positivity via the 1-nanosecond clamp.  `Gcra::new` always yields a
strictly positive `t` (so every division by `t` in the decision functions and
in `Quota::from_gcra_parameters` is by a nonzero value), even for
`per_second(10^9 + 1)` whose computed replenish interval floors to 0 ns; and
every value a successful decision installs is at least `t > 0` (partial
vending with `k = 0` rewrites the prior nonzero value), keeping 0 reserved as
the never-used sentinel. -/
theorem positivity_invariant :
    (∀ q : Quota, 0 < (Gcra.new q).t) ∧
    ((Quota.per_second 1000000001).replenish_1_per = 0 ∧
      (Gcra.new (Quota.per_second 1000000001)).t = 1) ∧
    (∀ (q : Quota) (start now v : Nat) (s : StateSnapshot),
      (Gcra.test_and_update (Gcra.new q) start now v).1 = .ok s →
      (Gcra.new q).t ≤ (Gcra.test_and_update (Gcra.new q) start now v).2) ∧
    (∀ (q : Quota) (start n now v : Nat) (s : StateSnapshot),
      (Gcra.test_n_all_and_update (Gcra.new q) start n now v).1 = .ok (.ok s) →
      (Gcra.new q).t ≤ (Gcra.test_n_all_and_update (Gcra.new q) start n now v).2) ∧
    (∀ (q : Quota) (start n now v : Nat), 1 ≤ q.max_burst →
      q.max_burst < u32Mod → 1 ≤ n →
      (0 < (Gcra.test_any_n_and_update (Gcra.new q) start n now v).1.1 →
        (Gcra.new q).t ≤
          (Gcra.test_any_n_and_update (Gcra.new q) start n now v).2) ∧
      ((Gcra.test_any_n_and_update (Gcra.new q) start n now v).1.1 = 0 →
        (Gcra.test_any_n_and_update (Gcra.new q) start n now v).2 = v)) := by
  refine ⟨?_, ⟨rfl, rfl⟩, ?_, ?_, ?_⟩
  · intro q
    exact lt_of_lt_of_le one_pos (le_max_right _ _)
  · intro q start now v s hok
    rw [test_and_update_eq] at hok ⊢
    by_cases h : now - start < observedTat (now - start) v - (Gcra.new q).tau
    · rw [if_pos h] at hok
      simp at hok
    · rw [if_neg h]
      exact Nat.le_add_left _ _
  · intro q start n now v s hok
    rw [test_n_all_and_update_eq] at hok ⊢
    by_cases hcap : (Gcra.new q).tau < (Gcra.new q).t * (n - 1)
    · rw [if_pos hcap] at hok
      simp at hok
    · rw [if_neg hcap] at hok ⊢
      by_cases h : now - start < observedTat (now - start) v
          + (Gcra.new q).t * (n - 1) - (Gcra.new q).tau
      · rw [if_pos h] at hok
        simp at hok
      · rw [if_neg h]
        omega
  · intro q start n now v hb1 hb2 hn
    rw [test_any_n_result]
    constructor
    · intro hk
      have hk1 : 0 < anyK (Gcra.new q) (now - start) n v := hk
      show (Gcra.new q).t ≤ anyNext (Gcra.new q) (now - start) n v
      unfold anyNext
      rw [if_pos hk1]
      omega
    · intro hk
      have hk1 : anyK (Gcra.new q) (now - start) n v = 0 := hk
      show anyNext (Gcra.new q) (now - start) n v = v
      exact anyK_zero_unchanged q (now - start) n v hb1 hb2 hn hk1

/-- Witness for C10: the per-second(3) quota — a fresh admission installs
tat `t = 333333333 ≥ t`; `check_any_n(2)` with `k = 0` (stored tat far in the
future) leaves the stored value unchanged. -/
theorem positivity_invariant_witness :
    ((Gcra.new (Quota.per_second 3)).t ≤
      (Gcra.test_and_update (Gcra.new (Quota.per_second 3)) 0 0 0).2) ∧
    ((Gcra.test_any_n_and_update (Gcra.new (Quota.per_second 3)) 0 2 0
        5000000000).2 = 5000000000) :=
  ⟨positivity_invariant.2.2.1 (Quota.per_second 3) 0 0 0
      ⟨333333333, 666666666, 0, 333333333⟩ (by decide),
   (positivity_invariant.2.2.2.2 (Quota.per_second 3) 0 2 0 5000000000
      (by decide) (by decide) (by decide)).2 (by decide)⟩

/-- A key that appears in no entry reads as absent (0). -/
theorem storeGet_not_mem (store : List (Nat × Nat)) (k : Nat)
    (h : ∀ kv ∈ store, kv.1 ≠ k) : storeGet store k = 0 := by
  induction store with
  | nil => rfl
  | cons hd tl ih =>
    unfold storeGet
    rw [List.find?_cons_of_neg]
    · exact ih fun kv hkv => h kv (List.mem_cons_of_mem _ hkv)
    · simp only [beq_iff_eq]
      exact fun heq => h hd (List.mem_cons_self _ _) heq

/-- Per-key effect of `retain_recent` on a store with unique keys: an entry at
or below the drop threshold reads as absent afterwards, any other entry is
untouched. -/
theorem storeGet_retain_recent (store : List (Nat × Nat)) (D k : Nat)
    (hnd : (store.map Prod.fst).Nodup) :
    storeGet (retain_recent store D) k =
      if storeGet store k ≤ D then 0 else storeGet store k := by
  induction store with
  | nil => simp [storeGet, retain_recent]
  | cons hd tl ih =>
    obtain ⟨a, b⟩ := hd
    rw [List.map_cons, List.nodup_cons] at hnd
    obtain ⟨ha, hnd'⟩ := hnd
    by_cases hk : a = k
    · subst hk
      have hget : storeGet ((a, b) :: tl) a = b := by
        unfold storeGet
        rw [List.find?_cons_of_pos _ (by simp)]
      rw [hget]
      unfold retain_recent
      by_cases hbD : b ≤ D
      · rw [List.filter_cons_of_neg]
        · rw [if_pos hbD]
          refine storeGet_not_mem _ _ ?_
          intro kv hkv heq
          have ha' : a ∉ List.map Prod.fst tl := ha
          exact ha' (heq ▸ List.mem_map_of_mem Prod.fst
            (List.mem_of_mem_filter hkv))
        · simp [InMemoryState.is_older_than, hbD]
      · rw [List.filter_cons_of_pos]
        · rw [if_neg hbD]
          unfold storeGet
          rw [List.find?_cons_of_pos _ (by simp)]
        · simp [InMemoryState.is_older_than, hbD]
    · have hget : storeGet ((a, b) :: tl) k = storeGet tl k := by
        unfold storeGet
        rw [List.find?_cons_of_neg]
        simp only [beq_iff_eq]
        exact hk
      rw [hget]
      unfold retain_recent
      by_cases hbD : b ≤ D
      · rw [List.filter_cons_of_neg]
        · exact ih hnd'
        · simp [InMemoryState.is_older_than, hbD]
      · rw [List.filter_cons_of_pos]
        · have hget2 : storeGet ((a, b) :: List.filter
              (fun kv => ! InMemoryState.is_older_than kv.2 D) tl) k =
              storeGet (List.filter
                (fun kv => ! InMemoryState.is_older_than kv.2 D) tl) k := by
            unfold storeGet
            rw [List.find?_cons_of_neg]
            simp only [beq_iff_eq]
            exact hk
          rw [hget2]
          exact ih hnd'
        · simp [InMemoryState.is_older_than, hbD]

/-- C6: eviction safety.  With drop threshold
`D = now.duration_since(start).saturating_sub(t)` (`dropBelow`, taken at
eviction time `ne`), `retain_recent` removes exactly the entries whose stored
value is `≤ D`; for every key the next single-cell decision (and, away from
the capacity error, the next all-or-nothing batch decision) computed against
the post-eviction store is identical — verdict, snapshot and installed tat —
to the one computed against the pre-eviction store; the batch decision's
outcome agrees in every case; and an evicted key reads as a fresh (absent)
state. -/
theorem eviction_safety (g : Gcra) (store : List (Nat × Nat)) (k : Nat)
    (start ne now : Nat) (n : Nat)
    (hnd : (store.map Prod.fst).Nodup) (hmono : ne ≤ now) :
    (∀ kv, kv ∈ retain_recent store (dropBelow g start ne) ↔
      kv ∈ store ∧ ¬ kv.2 ≤ dropBelow g start ne) ∧
    (Gcra.test_and_update g start now
        (storeGet (retain_recent store (dropBelow g start ne)) k) =
      Gcra.test_and_update g start now (storeGet store k)) ∧
    ((Gcra.test_n_all_and_update g start n now
        (storeGet (retain_recent store (dropBelow g start ne)) k)).1 =
      (Gcra.test_n_all_and_update g start n now (storeGet store k)).1) ∧
    (¬ g.tau < g.t * (n - 1) →
      Gcra.test_n_all_and_update g start n now
          (storeGet (retain_recent store (dropBelow g start ne)) k) =
        Gcra.test_n_all_and_update g start n now (storeGet store k)) ∧
    (storeGet store k ≤ dropBelow g start ne →
      storeGet (retain_recent store (dropBelow g start ne)) k = 0) := by
  have hD : dropBelow g start ne = ne - start - g.t := rfl
  have hsg := storeGet_retain_recent store (dropBelow g start ne) k hnd
  have hobs0 : observedTat (now - start) 0 = now - start := by
    simp [observedTat]
  refine ⟨?_, ?_, ?_, ?_, ?_⟩
  · intro kv
    unfold retain_recent
    rw [List.mem_filter]
    simp [InMemoryState.is_older_than]
  · rw [hsg]
    by_cases hvD : storeGet store k ≤ dropBelow g start ne
    · rw [if_pos hvD]
      by_cases hv0 : storeGet store k = 0
      · rw [hv0]
      · have hobsv : observedTat (now - start) (storeGet store k) =
            storeGet store k := by
          simp [observedTat, hv0]
        have hle : storeGet store k + g.t ≤ now - start := by omega
        rw [test_and_update_eq, test_and_update_eq, hobs0, hobsv,
          if_neg (by omega), if_neg (by omega)]
        rw [Nat.max_self, Nat.max_eq_right (by omega : storeGet store k ≤ now - start)]
    · rw [if_neg hvD]
  · rw [hsg]
    by_cases hvD : storeGet store k ≤ dropBelow g start ne
    · rw [if_pos hvD]
      by_cases hv0 : storeGet store k = 0
      · rw [hv0]
      · have hobsv : observedTat (now - start) (storeGet store k) =
            storeGet store k := by
          simp [observedTat, hv0]
        have hle : storeGet store k + g.t ≤ now - start := by omega
        rw [test_n_all_and_update_eq, test_n_all_and_update_eq]
        by_cases hcap : g.tau < g.t * (n - 1)
        · rw [if_pos hcap, if_pos hcap]
        · rw [if_neg hcap, if_neg hcap, hobs0, hobsv,
            if_neg (by omega), if_neg (by omega)]
          rw [Nat.max_self,
            Nat.max_eq_right (by omega : storeGet store k ≤ now - start)]
    · rw [if_neg hvD]
  · intro hcap
    rw [hsg]
    by_cases hvD : storeGet store k ≤ dropBelow g start ne
    · rw [if_pos hvD]
      by_cases hv0 : storeGet store k = 0
      · rw [hv0]
      · have hobsv : observedTat (now - start) (storeGet store k) =
            storeGet store k := by
          simp [observedTat, hv0]
        have hle : storeGet store k + g.t ≤ now - start := by omega
        rw [test_n_all_and_update_eq, test_n_all_and_update_eq,
          if_neg hcap, if_neg hcap, hobs0, hobsv,
          if_neg (by omega), if_neg (by omega)]
        rw [Nat.max_self,
          Nat.max_eq_right (by omega : storeGet store k ≤ now - start)]
    · rw [if_neg hvD]
  · intro hle
    rw [hsg, if_pos hle]

/-- Witness for C6: per-second(1) quota, eviction at 2s with entries
`(key 1 ↦ 0.5s, key 2 ↦ 3s)`: key 1 is dropped (threshold 1s) and the next
check at 2.5s gives the identical outcome either way; the dropped key reads
as absent. -/
theorem eviction_safety_witness :
    (Gcra.test_and_update (Gcra.new (Quota.per_second 1)) 0 2500000000
        (storeGet (retain_recent [(1, 500000000), (2, 3000000000)]
          (dropBelow (Gcra.new (Quota.per_second 1)) 0 2000000000)) 1) =
      Gcra.test_and_update (Gcra.new (Quota.per_second 1)) 0 2500000000
        (storeGet [(1, 500000000), (2, 3000000000)] 1)) ∧
    storeGet (retain_recent [(1, 500000000), (2, 3000000000)]
        (dropBelow (Gcra.new (Quota.per_second 1)) 0 2000000000)) 1 = 0 :=
  ⟨(eviction_safety (Gcra.new (Quota.per_second 1))
      [(1, 500000000), (2, 3000000000)] 1 0 2000000000 2500000000 1
      (by decide) (by decide)).2.1,
   (eviction_safety (Gcra.new (Quota.per_second 1))
      [(1, 500000000), (2, 3000000000)] 1 0 2000000000 2500000000 1
      (by decide) (by decide)).2.2.2.2 (by decide)⟩
